import Mathlib

/-!
Shallow embedding of the contracts/jobs/payments HTTP service (src/app.js,
later revision) into Lean 4.

Monetary values (balances, prices, deposit amounts) are embedded as `Rat`.
The relational store is embedded as a `State` of three lists; `findOne`
becomes `List.find?`, `findAll` with a `where` clause becomes `List.filter`,
and a row `save` becomes an id-keyed replacement in the list.  A sequelize
transaction body that may `throw` becomes a function returning the unchanged
state together with an error value: commit-or-nothing is explicit in the
embedding.
-/

inductive ProfileType where
  | client
  | contractor
  | admin
deriving DecidableEq, Repr

inductive ContractStatus where
  | new
  | inProgress
  | terminated
deriving DecidableEq, Repr

structure Profile where
  id : Nat
  firstName : String
  lastName : String
  profession : String
  balance : Rat
  ptype : ProfileType
deriving DecidableEq, Repr

structure Contract where
  id : Nat
  status : ContractStatus
  clientId : Nat
  contractorId : Nat
deriving DecidableEq, Repr

/-- `paid` is `boolean|null` in the schema: `none` models SQL NULL.
`paymentDate` is a timestamp embedded as an integer. -/
structure Job where
  id : Nat
  price : Rat
  paid : Option Bool
  paymentDate : Option Int
  contractId : Nat
deriving DecidableEq, Repr

structure State where
  profiles : List Profile
  contracts : List Contract
  jobs : List Job
deriving DecidableEq, Repr

/-- HTTP-level outcome classes used by the handlers (app.js maps them to
404 / 403 / 400; business-rule throws inside a transaction surface as 400,
called Invalid Operation in the docs). -/
inductive ApiErr where
  | notFound
  | forbidden
  | badRequest
  | invalidOperation
deriving DecidableEq, Repr

/-- `row.save()` semantics: every stored row with the same id is overwritten
with the in-memory object. -/
def replaceBy {α : Type} (key : α → Nat) (l : List α) (x : α) : List α :=
  l.map (fun y => if key y = key x then x else y)

/-- Balance of the first profile row with the given id (0 when absent). -/
def balanceOf (st : State) (i : Nat) : Rat :=
  ((st.profiles.find? (fun p => p.id == i)).map Profile.balance).getD 0

/-- POST /jobs/:job_id/pay (app.js lines 93-161).  The `job_id` route
parameter is always present when the route matches, so it is taken as a
`Nat` directly.  `req.profile` is the authenticated profile. -/
def payJob (st : State) (now : Int) (jobId : Nat) (profile : Profile) :
    State × Except ApiErr Job :=
  if profile.ptype ≠ ProfileType.client then (st, .error .forbidden)
  else
    match st.jobs.find? (fun j => j.id == jobId) with
    | none => (st, .error .invalidOperation)
    | some jobToPay =>
      -- `!jobToPay || jobToPay.paid || jobToPay.price < 0`: the JS value
      -- `jobToPay.paid` is truthy exactly when it is `true` (null and false
      -- are falsy).
      if jobToPay.paid == some true || decide (jobToPay.price < 0) then
        (st, .error .invalidOperation)
      else
        match st.contracts.find? (fun c => c.id == jobToPay.contractId) with
        | none => (st, .error .invalidOperation)
        | some associatedContract =>
          if associatedContract.clientId ≠ profile.id then (st, .error .invalidOperation)
          else
            match st.profiles.find? (fun p => p.id == associatedContract.contractorId) with
            | none => (st, .error .invalidOperation)
            | some contractor =>
              match st.profiles.find? (fun p => p.id == profile.id) with
              | none => (st, .error .invalidOperation)
              | some client =>
                if client.balance < jobToPay.price then (st, .error .invalidOperation)
                else
                  let client' := { client with balance := client.balance - jobToPay.price }
                  let contractor' := { contractor with balance := contractor.balance + jobToPay.price }
                  let job' := { jobToPay with paid := some true, paymentDate := some now }
                  ({ st with
                      profiles := replaceBy Profile.id (replaceBy Profile.id st.profiles client') contractor',
                      jobs := replaceBy Job.id st.jobs job' },
                   .ok job')

/-- `Contract.findAll({ where: { ClientId } })` in the deposit handler
(no status filter). -/
def clientContracts (st : State) (pid : Nat) : List Contract :=
  st.contracts.filter (fun c => c.clientId == pid)

/-- Unpaid jobs under the requesting client's contracts
(`paid` null or false). -/
def outstandingClientJobs (st : State) (pid : Nat) : List Job :=
  st.jobs.filter (fun j =>
    (clientContracts st pid).any (fun c => c.id == j.contractId) &&
    (j.paid == none || j.paid == some false))

/-- 25% of the total outstanding job cost: the deposit cap. -/
def maximumDeposit (st : State) (pid : Nat) : Rat :=
  ((outstandingClientJobs st pid).foldl (fun totalPrice j => totalPrice + j.price) 0) * (1/4)

/-- POST /balances/deposit/:userId (app.js lines 170-238).  `userId` is the
raw route-parameter string; `amount` is the JSON body's `depositAmount`,
`none` when it is absent or not a number (`isNaN`).  The guard
`!depositAmount || isNaN(depositAmount)` rejects exactly the amount 0 among
finite numbers (0 is falsy); negative amounts pass it. -/
def deposit (st : State) (userId : String) (amount : Option Rat) (profile : Profile) :
    State × Except ApiErr Profile :=
  match amount with
  | none => (st, .error .badRequest)
  | some a =>
    if a == 0 then (st, .error .badRequest)
    else if userId ≠ toString profile.id then (st, .error .forbidden)
    else if profile.ptype ≠ ProfileType.client then (st, .error .forbidden)
    else
      if (clientContracts st profile.id).isEmpty then (st, .error .invalidOperation)
      else if (outstandingClientJobs st profile.id).isEmpty then (st, .error .invalidOperation)
      else if maximumDeposit st profile.id < a then (st, .error .invalidOperation)
      else
        match st.profiles.find? (fun p => p.id == profile.id) with
        | none => (st, .error .invalidOperation)
        | some client =>
          let client' := { client with balance := client.balance + a }
          ({ st with profiles := replaceBy Profile.id st.profiles client' }, .ok client')

/-- GET /contracts/:id (app.js lines 16-38): a single `findOne` whose
`where` clause conjoins the id with membership of the requesting profile in
either party column; a foreign contract is indistinguishable from a missing
one (404 both ways). -/
def getContractById (st : State) (idP : Option Nat) (profile : Profile) :
    Except ApiErr Contract :=
  match idP with
  | none => .error .notFound
  | some i =>
    match st.contracts.find? (fun c =>
        c.id == i && (c.clientId == profile.id || c.contractorId == profile.id)) with
    | none => .error .notFound
    | some contract => .ok contract

/-- A date query parameter: `none` = absent (or empty, which is falsy),
`some none` = present but unparsable (`new Date(s)` is Invalid Date),
`some (some t)` = parses to timestamp `t`. -/
abbrev DateParam := Option (Option Int)

/-- The `paymentDate` clause accumulated into the sequelize job query. -/
inductive DateFilter where
  | noFilter
  | since (d : Int)
  | until (d : Int)
  | between (lo hi : Int)
deriving DecidableEq, Repr

/-- Date-range clause of GET /admin/best-profession (app.js lines 255-283).
The handler declares `let startDate` but the start branch assigns a fresh
`const startDate`, shadowing it; the outer variable is still undefined in
the end branch, whose `if (startDate)` is therefore never true: when both
bounds are supplied the query keeps only the upper bound. -/
def buildDateFilterBP (startP endP : DateParam) : Except Unit DateFilter :=
  match startP with
  | some none => .error ()
  | _ =>
    let f1 : DateFilter :=
      match startP with
      | some (some d) => .since d
      | _ => .noFilter
    match endP with
    | some none => .error ()
    | some (some d) => .ok (.until d)
    | none => .ok f1

/-- Date-range clause of GET /admin/best-clients (app.js lines 357-385):
here `startDate = new Date(start)` assigns the outer variable, so both
bounds are kept when both are supplied. -/
def buildDateFilterBC (startP endP : DateParam) : Except Unit DateFilter :=
  match startP with
  | some none => .error ()
  | _ =>
    match startP, endP with
    | _, some none => .error ()
    | some (some lo), some (some hi) => .ok (.between lo hi)
    | _, some (some hi) => .ok (.until hi)
    | some (some lo), none => .ok (.since lo)
    | _, none => .ok .noFilter

/-- SQL comparison of a nullable `paymentDate` against the accumulated
clause; a NULL date satisfies no gte/lte comparison. -/
def matchesDate (pd : Option Int) : DateFilter → Bool
  | .noFilter => true
  | .since d => match pd with | some t => decide (d ≤ t) | none => false
  | .until d => match pd with | some t => decide (t ≤ d) | none => false
  | .between lo hi =>
    match pd with
    | some t => decide (lo ≤ t) && decide (t ≤ hi)
    | none => false

/-- The paid jobs selected by the `{ paid: true, paymentDate: ... }` query. -/
def paidJobsIn (st : State) (f : DateFilter) : List Job :=
  st.jobs.filter (fun j => j.paid == some true && matchesDate j.paymentDate f)

/-- The `map[k] = map[k] ? map[k] + v : v` accumulation step on a JS object,
embedded as an insertion-ordered association list.  (When the stored value
is 0 — falsy — the JS expression stores `v`, which equals `0 + v`, so
adding unconditionally is arithmetically identical.) -/
def upsert {κ : Type} [DecidableEq κ] (k : κ) (v : Rat) :
    List (κ × Rat) → List (κ × Rat)
  | [] => [(k, v)]
  | e :: rest => if e.1 = k then (e.1, e.2 + v) :: rest else e :: upsert k v rest

/-- `map[k]` lookup on the association list (0 when absent; in the handlers
every key looked up is present). -/
def lookupD {κ : Type} [DecidableEq κ] (m : List (κ × Rat)) (k : κ) : Rat :=
  ((m.find? (fun e => e.1 = k)).map Prod.snd).getD 0

/-- Aggregation pipeline of GET /admin/best-profession (app.js lines
291-321): per-contract paid totals, mapped to contractors, mapped to
professions.  `Array.from(new Set(ids))` only feeds an `Op.in` clause, so
list `contains` on the un-deduplicated ids is the same selection. -/
def professionEntries (st : State) (f : DateFilter) : List (String × Rat) :=
  let jobsPaidInTimeRange := paidJobsIn st f
  let contractJobPriceMap :=
    jobsPaidInTimeRange.foldl (fun m j => upsert j.contractId j.price m) []
  let contractIds := jobsPaidInTimeRange.map (fun j => j.contractId)
  let relevantContracts := st.contracts.filter (fun c => contractIds.contains c.id)
  let contractorPaymentMap :=
    relevantContracts.foldl (fun m c => upsert c.contractorId (lookupD contractJobPriceMap c.id) m) []
  let contractorIds := relevantContracts.map (fun c => c.contractorId)
  let relevantContractors := st.profiles.filter (fun p => contractorIds.contains p.id)
  relevantContractors.foldl (fun m p => upsert p.profession (lookupD contractorPaymentMap p.id) m) []

/-- The running-maximum loop over `Object.entries(professionPaymentMap)`
(app.js lines 323-332): `professionPaymentCounter` starts at 0. -/
def bestLoop : List (String × Rat) → List String → Rat → List String
  | [], best, _ => best
  | (p, t) :: rest, best, counter =>
    if counter < t then bestLoop rest [p] t
    else if t = counter then bestLoop rest (best ++ [p]) counter
    else bestLoop rest best counter

/-- GET /admin/best-profession (app.js lines 246-335). -/
def bestProfession (st : State) (startP endP : DateParam) (profile : Profile) :
    Except ApiErr (List String) :=
  if profile.ptype ≠ ProfileType.admin then .error .forbidden
  else
    match buildDateFilterBP startP endP with
    | .error _ => .error .badRequest
    | .ok f =>
      if (paidJobsIn st f).isEmpty then .ok []
      else .ok (bestLoop (professionEntries st f) [] 0)

structure ClientEntry where
  id : Nat
  fullName : String
  paid : Rat
deriving DecidableEq, Repr

/-- Stable insertion (descending by `key`) matching the comparator
`(a, b) => key a > key b ? -1 : key a < key b ? 1 : 0` under a stable sort:
an element is placed before every later element whose key is not larger. -/
def insertDesc {α : Type} (key : α → Rat) (x : α) : List α → List α
  | [] => [x]
  | y :: ys => if key x < key y then y :: insertDesc key x ys else x :: y :: ys

def sortDesc {α : Type} (key : α → Rat) : List α → List α
  | [] => []
  | x :: xs => insertDesc key x (sortDesc key xs)

/-- `Array.from(new Set(l))`: deduplicate keeping first occurrences. -/
def dedupKeepFirst : List Nat → List Nat → List Nat
  | [], _ => []
  | x :: xs, seen =>
    if seen.contains x then dedupKeepFirst xs seen
    else x :: dedupKeepFirst xs (x :: seen)

/-- `.slice(0, limit)`: with no limit the whole list, otherwise the first
`limit` elements (`limit` is never negative here; the handler has already
rejected negative limits). -/
def applyLimit (l : List Nat) : Option Int → List Nat
  | none => l
  | some n => l.take n.toNat

/-- Aggregation and presentation of GET /admin/best-clients
(app.js lines 394-439), after the date filter and limit have been
validated.  Aggregates per contract `ClientId`; sorts the (duplicated)
client ids by total descending, deduplicates, takes the top `limit`,
fetches those profiles in store order, sorts them the same way and formats
`fullName` as first name, space, last name. -/
def bestClientsCore (st : State) (f : DateFilter) (limit : Option Int) :
    Except ApiErr (List ClientEntry) :=
  let jobsPaidInTimeRange := paidJobsIn st f
  if jobsPaidInTimeRange.isEmpty then .ok []
  else
    let contractJobPriceMap :=
      jobsPaidInTimeRange.foldl (fun m j => upsert j.contractId j.price m) []
    let contractIds := jobsPaidInTimeRange.map (fun j => j.contractId)
    let relevantContracts := st.contracts.filter (fun c => contractIds.contains c.id)
    let clientPaymentMap :=
      relevantContracts.foldl (fun m c => upsert c.clientId (lookupD contractJobPriceMap c.id) m) []
    let clientIds := relevantContracts.map (fun c => c.clientId)
    let sortedIds := sortDesc (fun i => lookupD clientPaymentMap i) clientIds
    let topIds := applyLimit (dedupKeepFirst sortedIds []) limit
    let relevantClients := st.profiles.filter (fun p => topIds.contains p.id)
    let sortedClients := sortDesc (fun p => lookupD clientPaymentMap p.id) relevantClients
    .ok (sortedClients.map (fun p =>
      { id := p.id, fullName := p.firstName ++ " " ++ p.lastName,
        paid := lookupD clientPaymentMap p.id }))

/-- GET /admin/best-clients (app.js lines 348-440).  `limitP` is the raw
query parameter with the same encoding as `DateParam` values: absent /
non-numeric string / numeric.  The validation
`clientFetchLimit && isNaN(clientFetchLimit) || clientFetchLimit < 0`
rejects non-numeric and negative limits; an absent limit passes every check
(`undefined < 0` is false).  The subsequent strict comparison
`clientFetchLimit === 0` compares the query-parameter string with the
number 0 and is never true, so no branch for it appears; a limit of 0 still
yields `[]` because `slice(0, 0)` keeps no client ids.  An absent limit
reaches `slice(0, undefined)`, which keeps the whole list: no default limit
is applied. -/
def bestClients (st : State) (startP endP : DateParam)
    (limitP : Option (Option Int)) (profile : Profile) :
    Except ApiErr (List ClientEntry) :=
  if profile.ptype ≠ ProfileType.admin then .error .forbidden
  else
    match buildDateFilterBC startP endP with
    | .error _ => .error .badRequest
    | .ok f =>
      match limitP with
      | some none => .error .badRequest
      | some (some n) =>
        if n < 0 then .error .badRequest
        else bestClientsCore st f (some n)
      | none => bestClientsCore st f none

deriving instance DecidableEq for Except

/-! ## Store lemmas: `find?` against id-keyed row replacement -/

theorem find?_key_of_eq_some {α : Type} (key : α → Nat) (l : List α) (i : Nat) (q : α)
    (h : l.find? (fun y => key y == i) = some q) : key q = i := by
  have hp := List.find?_some h
  simpa using hp

theorem find?_replaceBy_self {α : Type} (key : α → Nat) (l : List α) (x q : α)
    (h : l.find? (fun y => key y == key x) = some q) :
    (replaceBy key l x).find? (fun y => key y == key x) = some x := by
  induction l with
  | nil => simp [List.find?] at h
  | cons a l ih =>
    by_cases hk : key a = key x
    · have hrep : replaceBy key (a :: l) x = x :: replaceBy key l x := by
        simp [replaceBy, hk]
      rw [hrep, List.find?_cons_of_pos _ (by simp)]
    · have hrep : replaceBy key (a :: l) x = a :: replaceBy key l x := by
        simp [replaceBy, hk]
      rw [List.find?_cons_of_neg _ (by simpa using hk)] at h
      rw [hrep, List.find?_cons_of_neg _ (by simpa using hk)]
      exact ih h

theorem find?_replaceBy_other {α : Type} (key : α → Nat) (l : List α) (x : α) (i : Nat)
    (hne : key x ≠ i) :
    (replaceBy key l x).find? (fun y => key y == i) = l.find? (fun y => key y == i) := by
  induction l with
  | nil => rfl
  | cons a l ih =>
    by_cases hk : key a = key x
    · have hrep : replaceBy key (a :: l) x = x :: replaceBy key l x := by
        simp [replaceBy, hk]
      rw [hrep, List.find?_cons_of_neg _ (by simpa using hne),
        List.find?_cons_of_neg _ (by simp [hk, hne]), ih]
    · have hrep : replaceBy key (a :: l) x = a :: replaceBy key l x := by
        simp [replaceBy, hk]
      rw [hrep]
      by_cases hai : key a = i
      · rw [List.find?_cons_of_pos _ (by simpa using hai),
          List.find?_cons_of_pos _ (by simpa using hai)]
      · rw [List.find?_cons_of_neg _ (by simpa using hai),
          List.find?_cons_of_neg _ (by simpa using hai), ih]

/-! ## The pay-job transaction on the success path -/

/-- Under the handler's preconditions the pay transaction commits: the
explicit result state holds all three row updates at once (the embedding of
the transaction returns either this state or the unchanged input state:
commit-or-nothing). -/
theorem payJob_success_eq (st : State) (now : Int) (jobId : Nat)
    (profile j c contractor client : _)
    (hty : profile.ptype = ProfileType.client)
    (hj : st.jobs.find? (fun x => x.id == jobId) = some j)
    (hpaid : j.paid ≠ some true)
    (hprice : 0 ≤ j.price)
    (hc : st.contracts.find? (fun x => x.id == j.contractId) = some c)
    (hown : c.clientId = profile.id)
    (hk : st.profiles.find? (fun p => p.id == c.contractorId) = some contractor)
    (hcl : st.profiles.find? (fun p => p.id == profile.id) = some client)
    (hbal : j.price ≤ client.balance) :
    payJob st now jobId profile =
      ({ st with
          profiles := replaceBy Profile.id
            (replaceBy Profile.id st.profiles { client with balance := client.balance - j.price })
            { contractor with balance := contractor.balance + j.price },
          jobs := replaceBy Job.id st.jobs { j with paid := some true, paymentDate := some now } },
       .ok { j with paid := some true, paymentDate := some now }) := by
  have hguard : (j.paid == some true || decide (j.price < 0)) = false := by
    simp [hpaid, not_lt.2 hprice]
  simp only [payJob, hty, hj, hc, hk, hcl, hguard, hown]
  simp [not_lt.2 hbal]

/-- After a successful pay, the four observable effects: the updated job is
returned, the client row lost the price, the contractor row gained it, and
the job row is paid with a payment date. -/
theorem payJob_result_lookups (st : State) (now : Int) (jobId : Nat)
    (profile j c contractor client : _)
    (hty : profile.ptype = ProfileType.client)
    (hj : st.jobs.find? (fun x => x.id == jobId) = some j)
    (hpaid : j.paid ≠ some true)
    (hprice : 0 ≤ j.price)
    (hc : st.contracts.find? (fun x => x.id == j.contractId) = some c)
    (hown : c.clientId = profile.id)
    (hk : st.profiles.find? (fun p => p.id == c.contractorId) = some contractor)
    (hcl : st.profiles.find? (fun p => p.id == profile.id) = some client)
    (hbal : j.price ≤ client.balance)
    (hparties : c.contractorId ≠ profile.id) :
    (payJob st now jobId profile).2 = .ok { j with paid := some true, paymentDate := some now } ∧
    (payJob st now jobId profile).1.profiles.find? (fun p => p.id == profile.id) =
      some { client with balance := client.balance - j.price } ∧
    (payJob st now jobId profile).1.profiles.find? (fun p => p.id == c.contractorId) =
      some { contractor with balance := contractor.balance + j.price } ∧
    (payJob st now jobId profile).1.jobs.find? (fun x => x.id == jobId) =
      some { j with paid := some true, paymentDate := some now } := by
  have hclid : client.id = profile.id := find?_key_of_eq_some _ _ _ _ hcl
  have hkid : contractor.id = c.contractorId := find?_key_of_eq_some _ _ _ _ hk
  have hjid : j.id = jobId := find?_key_of_eq_some _ _ _ _ hj
  rw [payJob_success_eq st now jobId profile j c contractor client hty hj hpaid hprice hc hown hk hcl hbal]
  refine ⟨rfl, ?_, ?_, ?_⟩
  · rw [find?_replaceBy_other Profile.id _ _ profile.id
      (by show contractor.id ≠ profile.id; rw [hkid]; exact hparties)]
    have h1 : st.profiles.find?
        (fun y => y.id == Profile.id { client with balance := client.balance - j.price }) =
        some client := by
      show st.profiles.find? (fun y => y.id == client.id) = some client
      simpa [hclid] using hcl
    have h2 := find?_replaceBy_self Profile.id st.profiles _ client h1
    simpa [hclid] using h2
  · have h1 : (replaceBy Profile.id st.profiles
        { client with balance := client.balance - j.price }).find?
        (fun p => p.id == c.contractorId) = some contractor := by
      rw [find?_replaceBy_other Profile.id _ _ c.contractorId
        (by show client.id ≠ c.contractorId; rw [hclid]; exact fun h => hparties h.symm)]
      exact hk
    have h2 := find?_replaceBy_self Profile.id _
      { contractor with balance := contractor.balance + j.price } contractor
      (by show _ = some contractor; simpa [hkid] using h1)
    simpa [hkid] using h2
  · have h2 := find?_replaceBy_self Job.id st.jobs
      { j with paid := some true, paymentDate := some now } j
      (by show _ = some j; simpa [hjid] using hj)
    simpa [hjid] using h2

/-- C1: a successful payJob(jobId, requestingClientId) call, in one atomic
effect, decreases the client's balance by exactly the job's price,
increases the contractor's balance by exactly the job's price, marks the
job paid with a payment date, and returns the updated job; the embedded
transaction yields either exactly this post-state or the unchanged input
state (all three writes or none). -/
theorem pay_job_atomic_transfer (st : State) (now : Int) (jobId : Nat)
    (profile j c contractor client : _)
    (hty : profile.ptype = ProfileType.client)
    (hj : st.jobs.find? (fun x => x.id == jobId) = some j)
    (hpaid : j.paid ≠ some true)
    (hprice : 0 ≤ j.price)
    (hc : st.contracts.find? (fun x => x.id == j.contractId) = some c)
    (hown : c.clientId = profile.id)
    (hk : st.profiles.find? (fun p => p.id == c.contractorId) = some contractor)
    (hcl : st.profiles.find? (fun p => p.id == profile.id) = some client)
    (hbal : j.price ≤ client.balance)
    (hparties : c.contractorId ≠ profile.id) :
    (payJob st now jobId profile).2 = .ok { j with paid := some true, paymentDate := some now } ∧
    (payJob st now jobId profile).1.profiles.find? (fun p => p.id == profile.id) =
      some { client with balance := client.balance - j.price } ∧
    (payJob st now jobId profile).1.profiles.find? (fun p => p.id == c.contractorId) =
      some { contractor with balance := contractor.balance + j.price } ∧
    (payJob st now jobId profile).1.jobs.find? (fun x => x.id == jobId) =
      some { j with paid := some true, paymentDate := some now } :=
  payJob_result_lookups st now jobId profile j c contractor client
    hty hj hpaid hprice hc hown hk hcl hbal hparties

/-! Concrete scenario from the spec: client C (balance 1000) pays contractor
K (balance 100) for a job priced 500. -/

def clientW : Profile := ⟨1, "Cli", "Ent", "management", 1000, .client⟩
def contractorW : Profile := ⟨2, "Kon", "Tra", "builder", 100, .contractor⟩
def contractW : Contract := ⟨1, .inProgress, 1, 2⟩
def jobW : Job := ⟨1, 500, none, none, 1⟩
def stW : State := ⟨[clientW, contractorW], [contractW], [jobW]⟩

/-- Witness for C1 at the spec's scenario: paid=true, C.balance=500,
K.balance=600. -/
theorem pay_job_atomic_transfer_w :
    (payJob stW 7 1 clientW).2 = .ok ⟨1, 500, some true, some 7, 1⟩ ∧
    (payJob stW 7 1 clientW).1.profiles.find? (fun p => p.id == 1) =
      some ⟨1, "Cli", "Ent", "management", 500, .client⟩ ∧
    (payJob stW 7 1 clientW).1.profiles.find? (fun p => p.id == 2) =
      some ⟨2, "Kon", "Tra", "builder", 600, .contractor⟩ ∧
    (payJob stW 7 1 clientW).1.jobs.find? (fun x => x.id == 1) =
      some ⟨1, 500, some true, some 7, 1⟩ := by
  have h := pay_job_atomic_transfer stW 7 1 clientW jobW contractW contractorW clientW
    (by decide) (by decide) (by decide) (by decide) (by decide) (by decide)
    (by decide) (by decide) (by decide) (by decide)
  norm_num [clientW, contractorW, contractW, jobW] at h
  exact h

/-- C2: a payJob attempt on a job that is already paid throws inside the
transaction: the handler answers Invalid Operation (400) and returns the
store unchanged — nothing is persisted, so balances and the job change at
most once across a pay/re-pay pair. -/
theorem pay_job_already_paid_fails (st : State) (now : Int) (jobId : Nat)
    (profile j : _)
    (hty : profile.ptype = ProfileType.client)
    (hj : st.jobs.find? (fun x => x.id == jobId) = some j)
    (hpaid : j.paid = some true) :
    payJob st now jobId profile = (st, .error .invalidOperation) := by
  simp [payJob, hty, hj, hpaid]

/-- The job of the spec scenario after its payment has been recorded. -/
def jobWPaid : Job := ⟨1, 500, some true, some 7, 1⟩
def stWPaid : State :=
  ⟨[⟨1, "Cli", "Ent", "management", 500, .client⟩,
    ⟨2, "Kon", "Tra", "builder", 600, .contractor⟩], [contractW], [jobWPaid]⟩

/-- Witness for C2: re-paying the already-paid job fails with Invalid
Operation and leaves the state untouched. -/
theorem pay_job_already_paid_fails_w :
    payJob stWPaid 9 1 clientW = (stWPaid, .error .invalidOperation) :=
  pay_job_already_paid_fails stWPaid 9 1 clientW jobWPaid
    (by decide) (by decide) (by decide)

/-- C8: paying an unpaid job priced exactly 0 succeeds, marks it paid with
a payment date, and leaves both parties' balances unchanged. -/
theorem pay_zero_price_job (st : State) (now : Int) (jobId : Nat)
    (profile j c contractor client : _)
    (hty : profile.ptype = ProfileType.client)
    (hj : st.jobs.find? (fun x => x.id == jobId) = some j)
    (hpaid : j.paid ≠ some true)
    (hprice : j.price = 0)
    (hc : st.contracts.find? (fun x => x.id == j.contractId) = some c)
    (hown : c.clientId = profile.id)
    (hk : st.profiles.find? (fun p => p.id == c.contractorId) = some contractor)
    (hcl : st.profiles.find? (fun p => p.id == profile.id) = some client)
    (hbal : 0 ≤ client.balance)
    (hparties : c.contractorId ≠ profile.id) :
    (payJob st now jobId profile).2 = .ok { j with paid := some true, paymentDate := some now } ∧
    (payJob st now jobId profile).1.profiles.find? (fun p => p.id == profile.id) = some client ∧
    (payJob st now jobId profile).1.profiles.find? (fun p => p.id == c.contractorId) = some contractor := by
  obtain ⟨h1, h2, h3, -⟩ := payJob_result_lookups st now jobId profile j c contractor client
    hty hj hpaid (le_of_eq hprice.symm) hc hown hk hcl (by rw [hprice]; exact hbal) hparties
  refine ⟨h1, ?_, ?_⟩
  · rw [hprice, sub_zero] at h2
    exact h2
  · rw [hprice, add_zero] at h3
    exact h3

def jobZ : Job := ⟨1, 0, none, none, 1⟩
def stZ : State := ⟨[clientW, contractorW], [contractW], [jobZ]⟩

/-- Witness for C8: a 0-priced job flips paid/paymentDate with both
balances untouched. -/
theorem pay_zero_price_job_w :
    (payJob stZ 7 1 clientW).2 = .ok ⟨1, 0, some true, some 7, 1⟩ ∧
    (payJob stZ 7 1 clientW).1.profiles.find? (fun p => p.id == 1) = some clientW ∧
    (payJob stZ 7 1 clientW).1.profiles.find? (fun p => p.id == 2) = some contractorW := by
  have h := pay_zero_price_job stZ 7 1 clientW jobZ contractW contractorW clientW
    (by decide) (by decide) (by decide) (by decide) (by decide) (by decide)
    (by decide) (by decide) (by decide) (by decide)
  norm_num [jobZ] at h
  exact h

/-- C10: a successful payJob conserves money — the client's and the
contractor's balances sum to the same value before and after the
operation. -/
theorem pay_job_preserves_total (st : State) (now : Int) (jobId : Nat)
    (profile j c contractor client : _)
    (hty : profile.ptype = ProfileType.client)
    (hj : st.jobs.find? (fun x => x.id == jobId) = some j)
    (hpaid : j.paid ≠ some true)
    (hprice : 0 ≤ j.price)
    (hc : st.contracts.find? (fun x => x.id == j.contractId) = some c)
    (hown : c.clientId = profile.id)
    (hk : st.profiles.find? (fun p => p.id == c.contractorId) = some contractor)
    (hcl : st.profiles.find? (fun p => p.id == profile.id) = some client)
    (hbal : j.price ≤ client.balance)
    (hparties : c.contractorId ≠ profile.id) :
    balanceOf (payJob st now jobId profile).1 profile.id +
      balanceOf (payJob st now jobId profile).1 c.contractorId =
    balanceOf st profile.id + balanceOf st c.contractorId := by
  obtain ⟨-, h2, h3, -⟩ := payJob_result_lookups st now jobId profile j c contractor client
    hty hj hpaid hprice hc hown hk hcl hbal hparties
  unfold balanceOf
  rw [h2, h3, hcl, hk]
  simp only [Option.map_some', Option.getD_some]
  ring

/-- Witness for C10 at the spec scenario: 500 + 600 = 1000 + 100. -/
theorem pay_job_preserves_total_w :
    balanceOf (payJob stW 7 1 clientW).1 1 + balanceOf (payJob stW 7 1 clientW).1 2 =
      balanceOf stW 1 + balanceOf stW 2 :=
  pay_job_preserves_total stW 7 1 clientW jobW contractW contractorW clientW
    (by decide) (by decide) (by decide) (by decide) (by decide) (by decide)
    (by decide) (by decide) (by decide) (by decide)

/-! ## Deposit claims -/

/-- C3: for a client depositing into their own account who has at least one
contract and at least one outstanding job: an amount above the 25% cap is
an Invalid Operation with the store unchanged; a positive amount at or
under the cap is credited in full and the updated profile returned. -/
theorem deposit_cap_rule (st : State) (profile client : Profile) (a : Rat)
    (hty : profile.ptype = ProfileType.client)
    (hcon : ¬ (clientContracts st profile.id).isEmpty)
    (hjob : ¬ (outstandingClientJobs st profile.id).isEmpty)
    (hcl : st.profiles.find? (fun p => p.id == profile.id) = some client)
    (hpos : 0 < a) :
    (maximumDeposit st profile.id < a →
      deposit st (toString profile.id) (some a) profile = (st, .error .invalidOperation)) ∧
    (a ≤ maximumDeposit st profile.id →
      deposit st (toString profile.id) (some a) profile =
        ({ st with profiles :=
            replaceBy Profile.id st.profiles { client with balance := client.balance + a } },
         .ok { client with balance := client.balance + a }) ∧
      balanceOf (deposit st (toString profile.id) (some a) profile).1 profile.id =
        client.balance + a) := by
  have hz : (a == 0) = false := by simp [ne_of_gt hpos]
  constructor
  · intro hover
    simp [deposit, hz, hty, hcon, hjob, hover]
  · intro hunder
    have hord : ¬ maximumDeposit st profile.id < a := not_lt.2 hunder
    have hdep : deposit st (toString profile.id) (some a) profile =
        ({ st with profiles :=
            replaceBy Profile.id st.profiles { client with balance := client.balance + a } },
         .ok { client with balance := client.balance + a }) := by
      simp [deposit, hz, hty, hcon, hjob, hord, hcl]
    refine ⟨hdep, ?_⟩
    rw [hdep]
    have hclid : client.id = profile.id := find?_key_of_eq_some _ _ _ _ hcl
    have h1 : st.profiles.find?
        (fun y => y.id == Profile.id { client with balance := client.balance + a }) =
        some client := by
      show st.profiles.find? (fun y => y.id == client.id) = some client
      simpa [hclid] using hcl
    have h2 := find?_replaceBy_self Profile.id st.profiles _ client h1
    unfold balanceOf
    rw [show (replaceBy Profile.id st.profiles
        { client with balance := client.balance + a }).find? (fun p => p.id == profile.id) =
        some { client with balance := client.balance + a } from by simpa [hclid] using h2]
    rfl

/-! Deposit scenario from the spec: the client's outstanding unpaid job
prices sum to 400, so the cap is 100. -/

def clientD : Profile := ⟨1, "Dep", "Ositor", "management", 1000, .client⟩
def stD : State := ⟨[clientD], [⟨1, .inProgress, 1, 2⟩],
  [⟨1, 150, none, none, 1⟩, ⟨2, 250, some false, none, 1⟩]⟩

/-- Witness for C3: with 400 outstanding, a deposit of 100 is credited and
a deposit of 100.01 is rejected. -/
theorem deposit_cap_rule_w :
    deposit stD "1" (some 100.01) clientD = (stD, .error .invalidOperation) ∧
    (deposit stD "1" (some 100) clientD).2 =
      .ok ⟨1, "Dep", "Ositor", "management", 1100, .client⟩ ∧
    balanceOf (deposit stD "1" (some 100) clientD).1 1 = 1100 := by
  have hover := (deposit_cap_rule stD clientD clientD 100.01 (by decide) (by decide)
    (by decide) (by decide) (by norm_num)).1
  have hunder := (deposit_cap_rule stD clientD clientD 100 (by decide) (by decide)
    (by decide) (by decide) (by norm_num)).2
  have hcap : maximumDeposit stD 1 = 100 := by
    norm_num [maximumDeposit, outstandingClientJobs, clientContracts, stD, List.filter]
  refine ⟨?_, ?_, ?_⟩
  · have := hover (by rw [show clientD.id = 1 from rfl, hcap]; norm_num)
    simpa [clientD] using this
  · have := (hunder (by rw [show clientD.id = 1 from rfl, hcap])).1
    rw [show toString clientD.id = "1" from rfl] at this
    rw [this]
    norm_num [clientD]
  · have := (hunder (by rw [show clientD.id = 1 from rfl, hcap])).2
    rw [show toString clientD.id = "1" from rfl] at this
    have h1100 : (1000 : Rat) + 100 = 1100 := by norm_num
    simpa [clientD, h1100] using this

/-- Counterexample to C5: the validation only rejects falsy or NaN amounts,
so the negative amount -50 passes it; with 400 outstanding (cap 100) the
comparison `cap < -50` is false too, so the deposit commits and the balance
drops from 1000 to 950 — no Bad Request, and the store is reached and
changed. -/
theorem deposit_negative_amount_accepted :
    (deposit stD "1" (some (-50)) clientD).2 =
      .ok ⟨1, "Dep", "Ositor", "management", 950, .client⟩ ∧
    balanceOf (deposit stD "1" (some (-50)) clientD).1 1 = 950 ∧
    (deposit stD "1" (some (-50)) clientD).1 ≠ stD := by
  refine ⟨?_, ?_, ?_⟩
  · norm_num [deposit, stD, clientD, replaceBy, List.find?, clientContracts,
      outstandingClientJobs, maximumDeposit, List.filter]
    decide
  · norm_num [deposit, stD, clientD, replaceBy, balanceOf, List.find?, clientContracts,
      outstandingClientJobs, maximumDeposit, List.filter]
  · norm_num [deposit, stD, clientD, replaceBy, List.find?, clientContracts,
      outstandingClientJobs, maximumDeposit, List.filter]
    decide

/-- C5 amended: among finite numeric amounts, the pre-transaction
validation rejects exactly the absent/non-numeric amount and the amount 0
with Bad Request, before any store access and with the balance unchanged;
negative amounts are not rejected by it. -/
theorem deposit_amount_validation (st : State) (userId : String) (profile : Profile) :
    deposit st userId none profile = (st, .error .badRequest) ∧
    deposit st userId (some 0) profile = (st, .error .badRequest) := by
  constructor
  · rfl
  · simp [deposit]

/-! ## Contract access control -/

theorem find?_contract_party (l : List Contract) (c : Contract) (i pid : Nat)
    (hmem : c ∈ l) (hid : c.id = i)
    (huniq : ∀ x ∈ l, x.id = i → x = c) :
    l.find? (fun x => x.id == i && (x.clientId == pid || x.contractorId == pid)) =
      (if c.clientId = pid ∨ c.contractorId = pid then some c else none) := by
  induction l with
  | nil => cases hmem
  | cons a l ih =>
    by_cases hac : a = c
    · subst hac
      by_cases hp : a.clientId = pid ∨ a.contractorId = pid
      · have hpred : (fun x => x.id == i && (x.clientId == pid || x.contractorId == pid)) a = true := by
          rcases hp with h | h <;> simp [hid, h]
        rw [if_pos hp]
        exact List.find?_cons_of_pos l hpred
      · push_neg at hp
        have hpred : ¬ (fun x => x.id == i && (x.clientId == pid || x.contractorId == pid)) a = true := by
          simp [hp.1, hp.2]
        rw [if_neg (by push_neg; exact hp), List.find?_cons_of_neg l hpred]
        apply List.find?_eq_none.2
        intro x hx
        by_cases hxi : x.id = i
        · rw [huniq x (List.mem_cons_of_mem _ hx) hxi]
          exact hpred
        · simp [hxi]
    · have ha : a.id ≠ i := fun h => hac (huniq a (List.mem_cons_self _ _) h)
      rw [List.find?_cons_of_neg _ (by simp [ha])]
      have hmem' : c ∈ l := by
        rcases List.mem_cons.1 hmem with h | h
        · exact absurd h.symm hac
        · exact h
      exact ih hmem' (fun x hx hxi => huniq x (List.mem_cons_of_mem _ hx) hxi)

/-- C7: getContractById returns the stored contract exactly when the
requester is one of its two parties; for any other requester the response
is the same NotFound produced for a missing id, so a foreign contract's
existence is not leaked. -/
theorem contract_access_control (st : State) (i : Nat) (c : Contract) (profile : Profile)
    (hmem : c ∈ st.contracts) (hid : c.id = i)
    (huniq : ∀ x ∈ st.contracts, x.id = i → x = c) :
    (getContractById st (some i) profile = .ok c ↔
      (c.clientId = profile.id ∨ c.contractorId = profile.id)) ∧
    (¬ (c.clientId = profile.id ∨ c.contractorId = profile.id) →
      getContractById st (some i) profile = .error .notFound) ∧
    getContractById st none profile = .error .notFound := by
  have hfind := find?_contract_party st.contracts c i profile.id hmem hid huniq
  refine ⟨?_, ?_, rfl⟩
  · show (match st.contracts.find? (fun x =>
        x.id == i && (x.clientId == profile.id || x.contractorId == profile.id)) with
      | none => (.error .notFound : Except ApiErr Contract)
      | some contract => .ok contract) = .ok c ↔ _
    rw [hfind]
    by_cases hp : c.clientId = profile.id ∨ c.contractorId = profile.id
    · simp [hp]
    · simp [hp]
  · intro hp
    show (match st.contracts.find? (fun x =>
        x.id == i && (x.clientId == profile.id || x.contractorId == profile.id)) with
      | none => (.error .notFound : Except ApiErr Contract)
      | some contract => .ok contract) = .error .notFound
    rw [hfind, if_neg hp]

def contractC7 : Contract := ⟨5, .inProgress, 1, 2⟩
def stC7 : State := ⟨[], [contractC7], []⟩
def strangerC7 : Profile := ⟨3, "Out", "Sider", "management", 0, .client⟩

/-- Witness for C7: the client party fetches contract 5; a third profile
gets NotFound, identical to the response for an absent id. -/
theorem contract_access_control_w :
    getContractById stC7 (some 5) clientW = .ok contractC7 ∧
    getContractById stC7 (some 5) strangerC7 = .error .notFound ∧
    getContractById stC7 none strangerC7 = .error .notFound :=
  ⟨(contract_access_control stC7 5 contractC7 clientW (by decide) (by decide)
      (by decide)).1.mpr (Or.inl (by decide)),
   (contract_access_control stC7 5 contractC7 strangerC7 (by decide) (by decide)
      (by decide)).2.1 (by decide),
   (contract_access_control stC7 5 contractC7 strangerC7 (by decide) (by decide)
      (by decide)).2.2⟩

/-! ## Reporting claims -/

def adminP : Profile := ⟨9, "Ad", "Min", "boss", 0, .admin⟩

/-- State for exercising the best-profession date range: one paid job whose
paymentDate 100 lies before the queried range [200, 300]. -/
def stRange : State := ⟨[adminP, contractorW], [contractW],
  [⟨1, 50, some true, some 100, 1⟩]⟩

/-- C4 is violated by the code: because the inner `const startDate` shadows
the outer variable, supplying both bounds keeps only the upper bound, so
the job paid at 100 — outside the inclusive range [200, 300] — is still
aggregated and its contractor's profession returned; honouring both bounds
would select no job.  The last conjunct shows the same query against the
correctly-built two-sided filter excludes the job. -/
theorem best_profession_start_bound_dropped :
    bestProfession stRange (some (some 200)) (some (some 300)) adminP = .ok ["builder"] ∧
    buildDateFilterBP (some (some 200)) (some (some 300)) = .ok (.until 300) ∧
    matchesDate (some 100) (.between 200 300) = false := by
  refine ⟨?_, rfl, rfl⟩
  norm_num [bestProfession, buildDateFilterBP, paidJobsIn, professionEntries, bestLoop,
    upsert, lookupD, matchesDate, stRange, adminP, contractorW, contractW, List.filter,
    List.find?]

/-! Three clients with one paid job each, to exercise the best-clients
limit handling. -/

def clA : Profile := ⟨1, "Ann", "Ax", "management", 0, .client⟩
def clB : Profile := ⟨2, "Bob", "Bx", "management", 0, .client⟩
def clC : Profile := ⟨3, "Cyd", "Cx", "management", 0, .client⟩
def stBC : State := ⟨[adminP, clA, clB, clC],
  [⟨1, .inProgress, 1, 7⟩, ⟨2, .inProgress, 2, 7⟩, ⟨3, .inProgress, 3, 7⟩],
  [⟨1, 30, some true, some 10, 1⟩, ⟨2, 20, some true, some 10, 2⟩,
   ⟨3, 10, some true, some 10, 3⟩]⟩

/-- C6 is violated by the code: with the limit parameter omitted nothing
limits the `slice`, so all three paying clients come back — there is no
default limit of 2 (the repository's README requires "default limit is 2").
The remaining conjuncts record the parts of the claim that do hold on this
state: limit 0 gives an empty list, a negative or non-numeric limit is a
Bad Request, and entries are formatted/sorted as claimed. -/
theorem best_clients_no_default_limit :
    bestClients stBC none none none adminP =
      .ok [⟨1, "Ann Ax", 30⟩, ⟨2, "Bob Bx", 20⟩, ⟨3, "Cyd Cx", 10⟩] ∧
    (bestClients stBC none none none adminP ≠
      .ok [⟨1, "Ann Ax", 30⟩, ⟨2, "Bob Bx", 20⟩]) ∧
    bestClients stBC none none (some (some 0)) adminP = .ok [] ∧
    bestClients stBC none none (some (some 2)) adminP =
      .ok [⟨1, "Ann Ax", 30⟩, ⟨2, "Bob Bx", 20⟩] ∧
    bestClients stBC none none (some none) adminP = .error .badRequest ∧
    bestClients stBC none none (some (some (-1))) adminP = .error .badRequest := by
  refine ⟨?_, ?_, ?_, ?_, rfl, by decide⟩ <;>
    norm_num [bestClients, bestClientsCore, buildDateFilterBC, paidJobsIn, upsert,
      lookupD, matchesDate, sortDesc, insertDesc, dedupKeepFirst, applyLimit, stBC,
      adminP, clA, clB, clC, List.filter, List.find?] <;>
    decide

/-! ## Best-profession maximum loop -/

/-- Running maximum of the `Object.entries` totals, seeded like the
handler's `professionPaymentCounter`. -/
def foldMax (a : Rat) (l : List (String × Rat)) : Rat :=
  l.foldl (fun acc e => max acc e.2) a

def maxTotal (l : List (String × Rat)) : Rat := foldMax 0 l

theorem foldMax_cons (a : Rat) (e : String × Rat) (l : List (String × Rat)) :
    foldMax a (e :: l) = foldMax (max a e.2) l := rfl

theorem le_foldMax_init (a : Rat) (l : List (String × Rat)) : a ≤ foldMax a l := by
  induction l generalizing a with
  | nil => exact le_refl a
  | cons e l ih => exact le_trans (le_max_left a e.2) (ih (max a e.2))

theorem mem_le_foldMax (a : Rat) (l : List (String × Rat)) (e : String × Rat)
    (he : e ∈ l) : e.2 ≤ foldMax a l := by
  induction l generalizing a with
  | nil => cases he
  | cons x l ih =>
    rcases List.mem_cons.1 he with h | h
    · rw [foldMax_cons]
      exact le_trans (h ▸ le_max_right a x.2) (le_foldMax_init _ _)
    · rw [foldMax_cons]
      exact ih _ h

theorem foldMax_stall (a : Rat) (l : List (String × Rat))
    (h : ∀ e ∈ l, e.2 ≤ a) : foldMax a l = a := by
  induction l with
  | nil => rfl
  | cons x l ih =>
    rw [foldMax_cons, max_eq_left (h x (List.mem_cons_self _ _))]
    exact ih (fun e he => h e (List.mem_cons_of_mem _ he))

theorem foldMax_attained (l : List (String × Rat)) (a : Rat) :
    foldMax a l = a ∨ ∃ e ∈ l, foldMax a l = e.2 := by
  induction l generalizing a with
  | nil => exact Or.inl rfl
  | cons x l ih =>
    rcases ih (max a x.2) with h | ⟨e, he, hee⟩
    · rcases max_cases a x.2 with ⟨hm, -⟩ | ⟨hm, -⟩
      · exact Or.inl (by rw [foldMax_cons, h, hm])
      · exact Or.inr ⟨x, List.mem_cons_self _ _, by rw [foldMax_cons, h, hm]⟩
    · exact Or.inr ⟨e, List.mem_cons_of_mem _ he, by rw [foldMax_cons]; exact hee⟩

/-- Closed form of the handler's maximum loop: starting from accumulator
`best` and counter `counter`, the loop keeps `best` only when no total
beats the counter, and appends every entry whose total equals the final
running maximum. -/
theorem bestLoop_eq (l : List (String × Rat)) :
    ∀ (best : List String) (counter : Rat),
    bestLoop l best counter =
      (if l.any (fun e => decide (counter < e.2)) then [] else best) ++
        (l.filter (fun e => e.2 == foldMax counter l)).map Prod.fst := by
  induction l with
  | nil =>
    intro best counter
    simp [bestLoop]
  | cons x l ih =>
    intro best counter
    obtain ⟨p, t⟩ := x
    by_cases h1 : counter < t
    · rw [show bestLoop ((p, t) :: l) best counter = bestLoop l [p] t from by
        simp [bestLoop, h1]]
      rw [ih [p] t]
      have hany : (((p, t) :: l).any (fun e => decide (counter < e.2))) = true := by
        simp [List.any_cons, h1]
      rw [if_pos hany]
      have hm : foldMax counter ((p, t) :: l) = foldMax t l := by
        rw [foldMax_cons]
        simp [max_eq_right h1.le]
      rw [hm]
      by_cases h2 : l.any (fun e => decide (t < e.2)) = true
      · rw [if_pos h2]
        obtain ⟨e, he, hdec⟩ := List.any_eq_true.1 h2
        have hlt : t < e.2 := of_decide_eq_true hdec
        have hne : ((p, t).2 == foldMax t l) = false := by
          simp only [beq_eq_false_iff_ne, ne_eq]
          exact ne_of_lt (lt_of_lt_of_le hlt (mem_le_foldMax t l e he))
        simp [List.filter_cons, hne]
      · rw [if_neg h2]
        have hall : ∀ e ∈ l, e.2 ≤ t := by
          intro e he
          by_contra hgt
          exact h2 (List.any_eq_true.2 ⟨e, he, decide_eq_true (not_le.1 hgt)⟩)
        have hstall : foldMax t l = t := foldMax_stall t l hall
        have hhead : ((p, t).2 == foldMax t l) = true := by simp [hstall]
        simp [List.filter_cons, hhead]
    · by_cases h2 : t = counter
      · subst h2
        rw [show bestLoop ((p, t) :: l) best t = bestLoop l (best ++ [p]) t from by
          simp [bestLoop, h1]]
        rw [ih (best ++ [p]) t]
        have hany : (((p, t) :: l).any (fun e => decide (t < e.2))) =
            l.any (fun e => decide (t < e.2)) := by
          simp [List.any_cons, h1]
        rw [hany]
        have hm : foldMax t ((p, t) :: l) = foldMax t l := by
          rw [foldMax_cons]
          simp
        rw [hm]
        by_cases h3 : l.any (fun e => decide (t < e.2)) = true
        · rw [if_pos h3, if_pos h3]
          obtain ⟨e, he, hdec⟩ := List.any_eq_true.1 h3
          have hlt : t < e.2 := of_decide_eq_true hdec
          have hne : ((p, t).2 == foldMax t l) = false := by
            simp only [beq_eq_false_iff_ne, ne_eq]
            exact ne_of_lt (lt_of_lt_of_le hlt (mem_le_foldMax t l e he))
          simp [List.filter_cons, hne]
        · rw [if_neg h3, if_neg h3]
          have hall : ∀ e ∈ l, e.2 ≤ t := by
            intro e he
            by_contra hgt
            exact h3 (List.any_eq_true.2 ⟨e, he, decide_eq_true (not_le.1 hgt)⟩)
          have hstall : foldMax t l = t := foldMax_stall t l hall
          have hhead : ((p, t).2 == foldMax t l) = true := by simp [hstall]
          simp [List.filter_cons, hhead]
      · have h3 : t < counter := lt_of_le_of_ne (not_lt.1 h1) h2
        rw [show bestLoop ((p, t) :: l) best counter = bestLoop l best counter from by
          simp [bestLoop, h1, h2]]
        rw [ih best counter]
        have hany : (((p, t) :: l).any (fun e => decide (counter < e.2))) =
            l.any (fun e => decide (counter < e.2)) := by
          simp [List.any_cons, h1]
        rw [hany]
        have hm : foldMax counter ((p, t) :: l) = foldMax counter l := by
          rw [foldMax_cons]
          simp [max_eq_left h3.le]
        rw [hm]
        have hne : ((p, t).2 == foldMax counter l) = false := by
          simp only [beq_eq_false_iff_ne, ne_eq]
          exact ne_of_lt (lt_of_lt_of_le h3 (le_foldMax_init _ _))
        simp [List.filter_cons, hne]

theorem professionEntries_nil (st : State) (f : DateFilter)
    (h : paidJobsIn st f = []) : professionEntries st f = [] := by
  unfold professionEntries
  rw [h]
  simp

/-- A single paid job with a negative price: its profession's total, -5,
is the strict maximum, yet the loop returns nothing. -/
def stNeg : State := ⟨[adminP, contractorW], [contractW],
  [⟨1, -5, some true, some 100, 1⟩]⟩

/-- Counterexample to C9: a single paid job with a negative price gives the
one profession a (maximal) total of -5, but the loop's counter starts at 0,
so no profession is ever recorded and the result is empty instead of the
strict-maximum set {"builder"}. -/
theorem best_profession_negative_total_dropped :
    bestProfession stNeg none none adminP = .ok [] ∧
    professionEntries stNeg .noFilter = [("builder", -5)] := by
  constructor <;>
    norm_num [bestProfession, buildDateFilterBP, paidJobsIn, professionEntries, bestLoop,
      upsert, lookupD, matchesDate, stNeg, adminP, contractorW, contractW, List.filter,
      List.find?]

/-- C9 amended: provided every per-profession earning total is nonnegative
(as is the case whenever job prices are nonnegative — §3's job lifecycle
only pays jobs with price ≥ 0), bestProfession returns exactly the
professions whose total equals the maximum total `maxTotal`, which the last
two conjuncts identify as the strict maximum of the totals; with an
all-negative total the loop's 0-seeded counter drops the maximum (see the
counterexample). -/
theorem best_profession_argmax (st : State) (startP endP : DateParam)
    (profile : Profile) (f : DateFilter)
    (hadm : profile.ptype = ProfileType.admin)
    (hf : buildDateFilterBP startP endP = .ok f)
    (hnn : ∀ e ∈ professionEntries st f, 0 ≤ e.2) :
    bestProfession st startP endP profile =
      .ok (((professionEntries st f).filter
        (fun e => e.2 == maxTotal (professionEntries st f))).map Prod.fst) ∧
    (∀ e ∈ professionEntries st f, e.2 ≤ maxTotal (professionEntries st f)) ∧
    (professionEntries st f ≠ [] →
      ∃ e ∈ professionEntries st f, e.2 = maxTotal (professionEntries st f)) := by
  refine ⟨?_, ?_, ?_⟩
  · have hb : bestProfession st startP endP profile =
        (if (paidJobsIn st f).isEmpty then Except.ok []
         else Except.ok (bestLoop (professionEntries st f) [] 0)) := by
      unfold bestProfession
      rw [hf]
      simp [hadm]
    rw [hb]
    by_cases hemp : (paidJobsIn st f).isEmpty
    · rw [if_pos hemp]
      rw [professionEntries_nil st f (by simpa [List.isEmpty_iff] using hemp)]
      rfl
    · rw [if_neg hemp, bestLoop_eq]
      simp [maxTotal]
  · intro e he
    exact mem_le_foldMax 0 _ e he
  · intro hne
    rcases foldMax_attained (professionEntries st f) 0 with h0 | ⟨e, he, hee⟩
    · obtain ⟨e, he⟩ := List.exists_mem_of_ne_nil _ hne
      refine ⟨e, he, ?_⟩
      have h1 : e.2 ≤ 0 := by
        have := mem_le_foldMax 0 (professionEntries st f) e he
        rwa [h0] at this
      have h2 : (0 : Rat) ≤ e.2 := hnn e he
      show e.2 = maxTotal (professionEntries st f)
      rw [maxTotal, h0]
      exact le_antisymm h1 h2
    · exact ⟨e, he, hee.symm⟩

/-- Tie scenario: two contractors in different professions each earn 50. -/
def masonP : Profile := ⟨3, "Ma", "Son", "mason", 0, .contractor⟩
def stTie : State := ⟨[adminP, contractorW, masonP],
  [⟨1, .inProgress, 1, 2⟩, ⟨2, .inProgress, 1, 3⟩],
  [⟨1, 50, some true, some 10, 1⟩, ⟨2, 50, some true, some 10, 2⟩]⟩

/-- Witness for the amended C9 at the tie scenario (both tied professions
are returned, and nothing else). -/
theorem best_profession_argmax_w :
    (bestProfession stTie none none adminP =
      .ok (((professionEntries stTie .noFilter).filter
        (fun e => e.2 == maxTotal (professionEntries stTie .noFilter))).map Prod.fst) ∧
    (∀ e ∈ professionEntries stTie .noFilter,
      e.2 ≤ maxTotal (professionEntries stTie .noFilter)) ∧
    (professionEntries stTie .noFilter ≠ [] →
      ∃ e ∈ professionEntries stTie .noFilter,
        e.2 = maxTotal (professionEntries stTie .noFilter))) ∧
    bestProfession stTie none none adminP = .ok ["builder", "mason"] := by
  refine ⟨best_profession_argmax stTie none none adminP .noFilter rfl rfl (by decide), ?_⟩
  norm_num [bestProfession, buildDateFilterBP, paidJobsIn, professionEntries, bestLoop,
    upsert, lookupD, matchesDate, stTie, adminP, contractorW, masonP, List.filter,
    List.find?]
